import Mathlib

/-!
Verification development for the PM (preventive maintenance) scheduling engine
of the CMMS repository (`pm_scheduler.py`).

The Python module is shallowly embedded:

* `datetime` values are modelled as integer timestamps (seconds); a parsed
  calendar date corresponds to midnight of that day, so a `datetime` obtained
  from `strptime` is `dateToEpochDays d * 86400`.  `timedelta.days` is floor
  division by 86400 (`Int.fdiv`), exactly as in Python.
* `DateParser.parse_flexible` is embedded with the precise semantics of
  CPython `strptime` for the date-only formats the module uses: `%Y` is
  exactly four digits, `%m`/`%d` are one or two digits whose value lies in
  the regex range, the whole string must be consumed, and constructing the
  `datetime` additionally requires `1 ≤ year` and a day that exists in the
  month (otherwise `ValueError` is caught and the next format is tried).
* The database-backed `CompletionRecordRepository` (plus the `next_annual_pm`
  equipment-table lookup) is modelled as a record of lookup functions `Repo`;
  each field returns exactly what the corresponding query/cache returns:
  `uncompleted bfm pm week` models `get_uncompleted_schedules` (rows with
  status `Scheduled` from weeks strictly before `week`, newest first),
  `completions bfm` models `get_recent_completions` (the trailing 400-day
  window), `scheduled week bfm` models `get_scheduled_pms`, and
  `next_annual bfm` models the `next_annual_pm` column.
-/

/-! ### Calendar dates -/

/-- A calendar date, the payload of a parsed Python `datetime` (time 00:00). -/
structure Date where
  year : Nat
  month : Nat
  day : Nat
  deriving DecidableEq, Repr

/-- Gregorian leap-year rule (as used by Python `datetime`). -/
def isLeapYear (y : Nat) : Bool :=
  y % 4 == 0 && (y % 100 != 0 || y % 400 == 0)

/-- Number of days in a month, as validated by the `datetime` constructor. -/
def daysInMonth (y m : Nat) : Nat :=
  if m = 1 then 31
  else if m = 2 then (if isLeapYear y then 29 else 28)
  else if m = 3 then 31
  else if m = 4 then 30
  else if m = 5 then 31
  else if m = 6 then 30
  else if m = 7 then 31
  else if m = 8 then 31
  else if m = 9 then 30
  else if m = 10 then 31
  else if m = 11 then 30
  else 31

/-- Days since 1970-01-01 (the Howard Hinnant `days_from_civil` algorithm,
the standard civil-calendar day count that Python date subtraction obeys). -/
def dateToEpochDays (dt : Date) : Int :=
  let y : Int := if dt.month ≤ 2 then (dt.year : Int) - 1 else (dt.year : Int)
  let m : Int := dt.month
  let d : Int := dt.day
  let era : Int := (if 0 ≤ y then y else y - 399).fdiv 400
  let yoe : Int := y - era * 400
  let doy : Int := (153 * (m + (if 2 < m then -3 else 9)) + 2).fdiv 5 + d - 1
  let doe : Int := yoe * 365 + yoe.fdiv 4 - yoe.fdiv 100 + doy
  era * 146097 + doe - 719468

/-- The timestamp (seconds) of midnight of a date: the `datetime` returned by
`strptime` for a date-only format. -/
def dateToTs (dt : Date) : Int := dateToEpochDays dt * 86400

/-- `timedelta.days` of a difference of timestamps: Python floor-divides. -/
def tdDays (delta : Int) : Int := delta.fdiv 86400

/-- `(d - datetime.now()).days` for a parsed date `d` and current time `now`. -/
def daysUntil (now : Int) (dt : Date) : Int := tdDays (dateToTs dt - now)

/-- `(datetime.now() - d).days` for a parsed date `d` and current time `now`. -/
def daysSince (now : Int) (dt : Date) : Int := tdDays (now - dateToTs dt)

/-! ### `strptime`-style parsing -/

/-- Numeric value of a digit character. -/
def digitVal (c : Char) : Nat := c.toNat - 48

/-- A character matched by the `strptime` regex class `[0-9]`. -/
def isDigitChar (c : Char) : Bool := 48 ≤ c.toNat && c.toNat ≤ 57

/-- Horner accumulation of the numeric value of a digit run. -/
def fieldValAux : Nat → List Char → Nat
  | acc, [] => acc
  | acc, c :: cs => fieldValAux (acc * 10 + digitVal c) cs

/-- Numeric value of a digit run. -/
def fieldVal (cs : List Char) : Nat := fieldValAux 0 cs

/-- All characters of a field are digits. -/
def allDigits (cs : List Char) : Bool := cs.all isDigitChar

/-- Split a character list at every occurrence of `sep` (like Python
splitting a date string at its separator; the fields of a date format are
digit runs delimited by the separator literal). -/
def splitOnChar (sep : Char) : List Char → List (List Char)
  | [] => [[]]
  | c :: rest =>
    match splitOnChar sep rest with
    | [] => [[]]
    | g :: gs => if c = sep then [] :: g :: gs else (c :: g) :: gs

/-- `strptime` field `%m` / `%d`: one or two digits whose value lies in
`[lo, hi]` (`1..12` for months, `1..31` for days). -/
def parseField (lo hi : Nat) (cs : List Char) : Option Nat :=
  if allDigits cs ∧ (cs.length = 1 ∨ cs.length = 2) then
    if lo ≤ fieldVal cs ∧ fieldVal cs ≤ hi then some (fieldVal cs) else none
  else none

/-- `strptime` field `%Y`: exactly four digits. -/
def parseY4 (cs : List Char) : Option Nat :=
  if allDigits cs ∧ cs.length = 4 then some (fieldVal cs) else none

/-- `strptime` field `%y`: exactly two digits; CPython maps `00-68` to
`2000-2068` and `69-99` to `1969-1999`. -/
def parseY2 (cs : List Char) : Option Nat :=
  if allDigits cs ∧ cs.length = 2 then
    some (if fieldVal cs ≤ 68 then 2000 + fieldVal cs else 1900 + fieldVal cs)
  else none

/-- The field order of a three-field date format (`2` marks a `%y` year). -/
inductive FieldOrder
  | ymd
  | mdy
  | dmy
  | mdy2
  | dmy2
  deriving DecidableEq, Repr

/-- `datetime.strptime(s, fmt)` for a three-field date format with separator
`sep` and field order `ord`, returning `none` where Python raises
`ValueError` (regex mismatch, leftover input, or an invalid civil date). -/
def parseFmt (ord : FieldOrder) (sep : Char) (s : String) : Option Date :=
  match splitOnChar sep s.toList with
  | [f1, f2, f3] =>
    let ymd? : Option (Nat × Nat × Nat) :=
      match ord with
      | .ymd =>
        (parseY4 f1).bind fun y => (parseField 1 12 f2).bind fun m =>
          (parseField 1 31 f3).bind fun d => some (y, m, d)
      | .mdy =>
        (parseField 1 12 f1).bind fun m => (parseField 1 31 f2).bind fun d =>
          (parseY4 f3).bind fun y => some (y, m, d)
      | .dmy =>
        (parseField 1 31 f1).bind fun d => (parseField 1 12 f2).bind fun m =>
          (parseY4 f3).bind fun y => some (y, m, d)
      | .mdy2 =>
        (parseField 1 12 f1).bind fun m => (parseField 1 31 f2).bind fun d =>
          (parseY2 f3).bind fun y => some (y, m, d)
      | .dmy2 =>
        (parseField 1 31 f1).bind fun d => (parseField 1 12 f2).bind fun m =>
          (parseY2 f3).bind fun y => some (y, m, d)
    match ymd? with
    | some (y, m, d) =>
      if 1 ≤ y ∧ d ≤ daysInMonth y m then some ⟨y, m, d⟩ else none
    | none => none
  | _ => none

/-- Try a list of formats in order, returning the first successful parse
(the `for fmt in formats` loop of `parse_flexible`). -/
def tryFormats : List (FieldOrder × Char) → String → Option Date
  | [], _ => none
  | (ord, sep) :: rest, s =>
    match parseFmt ord sep s with
    | some d => some d
    | none => tryFormats rest s

/-- `DateParser.parse_flexible` (`pm_scheduler.py` lines 72-91): `None` or
empty input gives `None`; the standard format `%Y-%m-%d` is tried first and
then, in order, `%m/%d/%Y`, `%d/%m/%Y`, `%Y/%m/%d`, `%m-%d-%Y`; every
failure is swallowed and total failure gives `None`. -/
def parse_flexible (date_string : Option String) : Option Date :=
  match date_string with
  | none => none
  | some s =>
    if s = "" then none
    else
      match parseFmt .ymd '-' s with
      | some d => some d
      | none =>
        tryFormats [(.mdy, '/'), (.dmy, '/'), (.ymd, '/'), (.mdy, '-')] s

/-- The parser that claim C6 describes, written from the words of the claim:
the
formats `%Y-%m-%d`, `%m/%d/%Y`, `%m/%d/%y`, `%m-%d-%Y`, `%m-%d-%y`,
`%d/%m/%Y`, `%d/%m/%y` tried in that order. -/
def specClaimParseFlexible (date_string : Option String) : Option Date :=
  match date_string with
  | none => none
  | some s =>
    if s = "" then none
    else
      tryFormats [(.ymd, '-'), (.mdy, '/'), (.mdy2, '/'), (.mdy, '-'),
        (.mdy2, '-'), (.dmy, '/'), (.dmy2, '/')] s

/-- The amended description of `parse_flexible`: null/empty input gives null,
otherwise the formats `%Y-%m-%d`, `%m/%d/%Y`, `%d/%m/%Y`, `%Y/%m/%d`,
`%m-%d-%Y` are tried in that order and the first success is returned. -/
def specAmendedParseFlexible (date_string : Option String) : Option Date :=
  match date_string with
  | none => none
  | some s =>
    if s = "" then none
    else
      tryFormats [(.ymd, '-'), (.mdy, '/'), (.dmy, '/'), (.ymd, '/'),
        (.mdy, '-')] s

/-! ### `strftime('%Y-%m-%d')` rendering -/

/-- The digit character for `n < 10`. -/
def digitCharOf (n : Nat) : Char :=
  match n with
  | 0 => '0'
  | 1 => '1'
  | 2 => '2'
  | 3 => '3'
  | 4 => '4'
  | 5 => '5'
  | 6 => '6'
  | 7 => '7'
  | 8 => '8'
  | _ => '9'

/-- Zero-padded two-digit rendering (`%m`, `%d`). -/
def pad2chars (n : Nat) : List Char :=
  [digitCharOf (n / 10 % 10), digitCharOf (n % 10)]

/-- Zero-padded four-digit rendering (`%Y` for years up to 9999). -/
def pad4chars (n : Nat) : List Char :=
  [digitCharOf (n / 1000 % 10), digitCharOf (n / 100 % 10),
   digitCharOf (n / 10 % 10), digitCharOf (n % 10)]

/-- `d.strftime('%Y-%m-%d')`. -/
def formatYMD (dt : Date) : String :=
  String.mk (pad4chars dt.year ++ '-' :: (pad2chars dt.month ++ '-' :: pad2chars dt.day))

/-! ### PM data model (`pm_scheduler.py` lines 18-64) -/

/-- `PMType` enum. -/
inductive PMType
  | MONTHLY
  | ANNUAL
  deriving DecidableEq, Repr

/-- `PMType.value`: the string payload of the enum. -/
def PMType.value : PMType → String
  | .MONTHLY => "Monthly"
  | .ANNUAL => "Annual"

/-- `PMStatus` enum. -/
inductive PMStatus
  | DUE
  | NOT_DUE
  | RECENTLY_COMPLETED
  | CONFLICTED
  deriving DecidableEq, Repr

/-- `Equipment` dataclass. -/
structure Equipment where
  bfm_no : String
  description : String
  has_monthly : Bool
  has_annual : Bool
  last_monthly_date : Option String
  last_annual_date : Option String
  status : String
  priority : Int := 99
  deriving DecidableEq, Repr

/-- `CompletionRecord` dataclass (its `completion_date` is already parsed). -/
structure CompletionRecord where
  bfm_no : String
  pm_type : PMType
  completion_date : Date
  technician : String
  deriving DecidableEq, Repr

/-- `PMAssignment` dataclass. -/
structure PMAssignment where
  bfm_no : String
  pm_type : PMType
  description : String
  priority_score : Int
  reason : String
  deriving DecidableEq, Repr

/-- `PMEligibilityResult` named tuple. -/
structure PMEligibilityResult where
  status : PMStatus
  reason : String
  priority_score : Int := 0
  days_overdue : Int := 0
  deriving DecidableEq, Repr

/-- A row returned by `get_uncompleted_schedules` (a `Scheduled`-status
`weekly_pm_schedules` row from a week strictly before the target week). -/
structure UncompletedSched where
  week_start : String
  technician : String
  sched_status : String
  scheduled_date : String
  deriving DecidableEq, Repr

/-- A row returned by `get_scheduled_pms` for the target week. -/
structure ScheduledPM where
  bfm_no : String
  pm_type : String
  technician : String
  sched_status : String
  deriving DecidableEq, Repr

/-- The database access layer (`CompletionRecordRepository` plus the
`next_annual_pm` equipment-table lookup), modelled as pure lookups:

* `uncompleted bfm pm week` — `get_uncompleted_schedules bfm pm week`:
  uncompleted (`status = 'Scheduled'`) schedule rows for this equipment and
  PM type from weeks strictly before `week`, newest first;
* `next_annual bfm` — the `next_annual_pm` column for this equipment;
* `completions bfm` — `get_recent_completions bfm 400`: completion records
  of the trailing 400-day window;
* `scheduled week bfm` — `get_scheduled_pms week bfm`: rows scheduled for
  the target week itself. -/
structure Repo where
  uncompleted : String → PMType → Date → List UncompletedSched
  next_annual : String → Option String
  completions : String → List CompletionRecord
  scheduled : Date → String → List ScheduledPM

/-! ### `PMEligibilityChecker` (`pm_scheduler.py` lines 277-497) -/

/-- `PM_FREQUENCIES` class attribute. -/
def PM_FREQUENCIES : PMType → Int
  | .MONTHLY => 30
  | .ANNUAL => 365

/-- `_get_minimum_interval` (lines 369-374). -/
def get_minimum_interval : PMType → Int
  | .MONTHLY => 30
  | .ANNUAL => 365

/-- `max(completions, key=lambda x: x.completion_date)`: Python `max` keeps
the first element whose key is maximal, replacing only on a strict
increase. -/
def latestCompletion (c : CompletionRecord) (cs : List CompletionRecord) :
    CompletionRecord :=
  cs.foldl
    (fun acc x =>
      if dateToTs acc.completion_date < dateToTs x.completion_date then x
      else acc)
    c

/-- `_check_cross_pm_conflicts` (lines 376-404). -/
def check_cross_pm_conflicts (now : Int)
    (recent_completions : List CompletionRecord) (pm_type : PMType) :
    PMEligibilityResult :=
  match pm_type with
  | .ANNUAL =>
    match recent_completions.filter
        (fun c => decide (c.pm_type = PMType.MONTHLY)) with
    | [] => ⟨.DUE, "No cross-PM conflicts", 0, 0⟩
    | c :: cs =>
      let latest_monthly := latestCompletion c cs
      let days_since_monthly := daysSince now latest_monthly.completion_date
      if days_since_monthly < 7 then
        ⟨.CONFLICTED,
          "Annual blocked - Monthly PM completed " ++
            toString days_since_monthly ++ " days ago", 0, 0⟩
      else ⟨.DUE, "No cross-PM conflicts", 0, 0⟩
  | .MONTHLY =>
    match recent_completions.filter
        (fun c => decide (c.pm_type = PMType.ANNUAL)) with
    | [] => ⟨.DUE, "No cross-PM conflicts", 0, 0⟩
    | c :: cs =>
      let latest_annual := latestCompletion c cs
      let days_since_annual := daysSince now latest_annual.completion_date
      if days_since_annual < 30 then
        ⟨.CONFLICTED,
          "Monthly blocked - Annual PM completed " ++
            toString days_since_annual ++ " days ago", 0, 0⟩
      else ⟨.DUE, "No cross-PM conflicts", 0, 0⟩

/-- `_check_due_date` (lines 406-474). -/
def check_due_date (now : Int) (equipment : Equipment) (pm_type : PMType)
    (recent_completions : List CompletionRecord) : PMEligibilityResult :=
  let same_type_completions :=
    recent_completions.filter (fun c => decide (c.pm_type = pm_type))
  let dated : Option Date × String :=
    match same_type_completions with
    | c :: cs => (some (latestCompletion c cs).completion_date,
        "pm_completions_table")
    | [] =>
      let last_date_str := if pm_type = PMType.MONTHLY then
          equipment.last_monthly_date
        else equipment.last_annual_date
      (parse_flexible last_date_str, "equipment_table")
  match dated with
  | (none, _) =>
    let priority : Int := if pm_type = PMType.MONTHLY then 1000 else 900
    ⟨.DUE, pm_type.value ++ " PM never completed - HIGH PRIORITY",
      priority, 0⟩
  | (some last_completion_date, source) =>
    let days_since_completion := daysSince now last_completion_date
    let min_days : Int := if pm_type = PMType.MONTHLY then 30 else 365
    let max_days : Int := if pm_type = PMType.MONTHLY then 35 else 370
    let ideal_frequency : Int := if pm_type = PMType.MONTHLY then 30 else 365
    if min_days ≤ days_since_completion then
      let days_overdue := days_since_completion - ideal_frequency
      if 0 < days_overdue then
        ⟨.DUE,
          pm_type.value ++ " PM OVERDUE by " ++ toString days_overdue ++
            " days (last: " ++ formatYMD last_completion_date ++
            ", source: " ++ source ++ ")",
          min (500 + days_overdue * 10) 999, days_overdue⟩
      else if days_since_completion ≤ max_days then
        ⟨.DUE,
          pm_type.value ++ " PM due now (" ++ toString days_since_completion ++
            " days since last, last: " ++ formatYMD last_completion_date ++
            ", source: " ++ source ++ ")",
          300 - |days_since_completion - ideal_frequency|, 0⟩
      else
        ⟨.DUE,
          pm_type.value ++ " PM due (" ++ toString days_since_completion ++
            " days since last, last: " ++ formatYMD last_completion_date ++
            ", source: " ++ source ++ ")",
          200, 0⟩
    else
      let days_until_due := min_days - days_since_completion
      ⟨.NOT_DUE,
        pm_type.value ++ " PM not due for " ++ toString days_until_due ++
          " days (last: " ++ formatYMD last_completion_date ++
          ", source: " ++ source ++ ")", 0, 0⟩

/-- The Annual `next_annual_pm` override inside `check_eligibility`
(lines 311-338): `some r` when the override decides the result, `none`
when evaluation falls through to the generic rules. -/
def annual_override_check (repo : Repo) (now : Int) (equipment : Equipment) :
    Option PMEligibilityResult :=
  match repo.next_annual equipment.bfm_no with
  | none => none
  | some next_annual_str =>
    if next_annual_str = "" then none
    else
      match parse_flexible (some next_annual_str) with
      | none => none
      | some next_annual_date =>
        let days_until_next_annual := daysUntil now next_annual_date
        if 7 < days_until_next_annual then
          some ⟨.NOT_DUE,
            "Annual PM scheduled for " ++ formatYMD next_annual_date ++
              " (" ++ toString days_until_next_annual ++ " days from now)",
            0, 0⟩
        else if -30 ≤ days_until_next_annual then
          let priority := 500 + |min days_until_next_annual 0| * 10
          some ⟨.DUE,
            "Annual PM due by Next Annual PM Date: " ++
              formatYMD next_annual_date,
            priority, |min days_until_next_annual 0|⟩
        else none

/-- Rules 4-7 of `check_eligibility` (lines 340-367): recently-completed,
cross-PM conflict, already-scheduled-this-week, generic due date. -/
def eligibility_tail (repo : Repo) (now : Int) (equipment : Equipment)
    (pm_type : PMType) (week_start : Date) : PMEligibilityResult :=
  let recent_completions := repo.completions equipment.bfm_no
  let same_type_completions :=
    recent_completions.filter (fun c => decide (c.pm_type = pm_type))
  let recently : Option PMEligibilityResult :=
    match same_type_completions with
    | [] => none
    | c :: cs =>
      let latest_completion := latestCompletion c cs
      let days_since := daysSince now latest_completion.completion_date
      let min_interval := get_minimum_interval pm_type
      if days_since < min_interval then
        some ⟨.RECENTLY_COMPLETED,
          pm_type.value ++ " PM completed " ++ toString days_since ++
            " days ago (min interval: " ++ toString min_interval ++ ")", 0, 0⟩
      else none
  match recently with
  | some r => r
  | none =>
    let conflict_result :=
      check_cross_pm_conflicts now recent_completions pm_type
    if conflict_result.status = PMStatus.CONFLICTED then conflict_result
    else
      let scheduled_pms := repo.scheduled week_start equipment.bfm_no
      if scheduled_pms.any (fun s => decide (s.pm_type = pm_type.value)) then
        ⟨.CONFLICTED, "Already scheduled for this week", 0, 0⟩
      else check_due_date now equipment pm_type recent_completions

/-- `PMEligibilityChecker.check_eligibility` (lines 290-367). -/
def check_eligibility (repo : Repo) (now : Int) (equipment : Equipment)
    (pm_type : PMType) (week_start : Date) : PMEligibilityResult :=
  if pm_type = PMType.MONTHLY ∧ equipment.has_monthly = false then
    ⟨.NOT_DUE, "Equipment does not require Monthly PM", 0, 0⟩
  else if pm_type = PMType.ANNUAL ∧ equipment.has_annual = false then
    ⟨.NOT_DUE, "Equipment does not require Annual PM", 0, 0⟩
  else
    match repo.uncompleted equipment.bfm_no pm_type week_start with
    | u :: us =>
      let oldest_uncompleted := (u :: us).getLastD u
      ⟨.CONFLICTED,
        "Already scheduled for week " ++ oldest_uncompleted.week_start ++
          " (uncompleted) - assigned to " ++ oldest_uncompleted.technician,
        0, 0⟩
    | [] =>
      let annual_override : Option PMEligibilityResult :=
        if pm_type = PMType.ANNUAL then
          annual_override_check repo now equipment
        else none
      match annual_override with
      | some r => r
      | none => eligibility_tail repo now equipment pm_type week_start

/-! ### `PMAssignmentGenerator` (`pm_scheduler.py` lines 500-575) -/

/-- Python dict assignment `m[k] = v` on an association list. -/
def dictInsert (m : List (String × Int)) (k : String) (v : Int) :
    List (String × Int) :=
  match m with
  | [] => [(k, v)]
  | (k2, v2) :: rest =>
    if k2 = k then (k, v) :: rest else (k2, v2) :: dictInsert rest k v

/-- Python `m.get(k, d)` on an association list. -/
def dictGetD (m : List (String × Int)) (k : String) (d : Int) : Int :=
  match m with
  | [] => d
  | (k2, v2) :: rest => if k2 = k then v2 else dictGetD rest k d

/-- The loop body of `generate_assignments` for one equipment item
(lines 517-561): skip inactive equipment, record its priority class, append
a Monthly assignment if Monthly eligibility is `DUE`, then append an Annual
assignment if Annual eligibility is `DUE` and no Monthly assignment for the
same equipment is already collected. -/
def genStep (repo : Repo) (now : Int) (week_start : Date)
    (st : List (String × Int) × List PMAssignment) (equipment : Equipment) :
    List (String × Int) × List PMAssignment :=
  if equipment.status = "Active" then
    let m := dictInsert st.1 equipment.bfm_no equipment.priority
    let monthly_result :=
      check_eligibility repo now equipment PMType.MONTHLY week_start
    let acc1 :=
      if equipment.has_monthly = true ∧
          monthly_result.status = PMStatus.DUE then
        st.2 ++ [⟨equipment.bfm_no, PMType.MONTHLY, equipment.description,
          monthly_result.priority_score, monthly_result.reason⟩]
      else st.2
    let has_monthly_assignment :=
      acc1.any fun a =>
        decide (a.bfm_no = equipment.bfm_no ∧ a.pm_type = PMType.MONTHLY)
    let annual_result :=
      check_eligibility repo now equipment PMType.ANNUAL week_start
    let acc2 :=
      if equipment.has_annual = true ∧ has_monthly_assignment = false ∧
          annual_result.status = PMStatus.DUE then
        acc1 ++ [⟨equipment.bfm_no, PMType.ANNUAL, equipment.description,
          annual_result.priority_score, annual_result.reason⟩]
      else acc1
    (m, acc2)
  else st

/-- The priority class used by the final sort: the `equipment_priority_map`
built by the loop, queried with default 99. -/
def priorityClassIn (m : List (String × Int)) (a : PMAssignment) : Int :=
  dictGetD m a.bfm_no 99

/-- The sort order of `generate_assignments` (line 568-573): ascending
priority class, then descending priority score; the non-strict order of the
Python key `(priority_class, -priority_score)`. -/
def assignLE (m : List (String × Int)) (a b : PMAssignment) : Prop :=
  priorityClassIn m a < priorityClassIn m b ∨
    (priorityClassIn m a = priorityClassIn m b ∧
      b.priority_score ≤ a.priority_score)

instance (m : List (String × Int)) : DecidableRel (assignLE m) := fun a b =>
  inferInstanceAs (Decidable (priorityClassIn m a < priorityClassIn m b ∨
    (priorityClassIn m a = priorityClassIn m b ∧
      b.priority_score ≤ a.priority_score)))

/-- `PMAssignmentGenerator.generate_assignments` (lines 507-575): collect
potential assignments, sort them by `(priority class, -priority score)`
(Python `list.sort` is a stable sort, as is `List.insertionSort`), and
return the first `max_assignments` of them. -/
def generate_assignments (repo : Repo) (now : Int)
    (equipment_list : List Equipment) (week_start : Date)
    (max_assignments : Nat) : List PMAssignment :=
  let st := equipment_list.foldl (genStep repo now week_start) ([], [])
  (List.insertionSort (assignLE st.1) st.2).take max_assignments

theorem digitVal_le_nine {c : Char} (h : isDigitChar c = true) :
    digitVal c ≤ 9 := by
  unfold isDigitChar at h
  unfold digitVal
  simp only [Bool.and_eq_true, decide_eq_true_eq] at h
  omega

theorem fieldValAux_lt :
    ∀ (cs : List Char), allDigits cs = true →
      ∀ acc : Nat, fieldValAux acc cs < (acc + 1) * 10 ^ cs.length
  | [], _, acc => by
    have e : fieldValAux acc [] = acc := rfl
    rw [e, List.length_nil, pow_zero, Nat.mul_one]
    omega
  | c :: cs, h, acc => by
    have h' : isDigitChar c = true ∧ allDigits cs = true := by
      simpa [allDigits] using h
    have hc : digitVal c ≤ 9 := digitVal_le_nine h'.1
    have ht := fieldValAux_lt cs h'.2 (acc * 10 + digitVal c)
    have step : fieldValAux acc (c :: cs) = fieldValAux (acc * 10 + digitVal c) cs := rfl
    rw [step, List.length_cons, pow_succ]
    have hmul : (acc * 10 + digitVal c + 1) * 10 ^ cs.length ≤
        ((acc + 1) * 10) * 10 ^ cs.length :=
      Nat.mul_le_mul_right _ (by omega)
    have heq : ((acc + 1) * 10) * 10 ^ cs.length = (acc + 1) * (10 ^ cs.length * 10) := by
      ring
    exact lt_of_lt_of_le ht (heq ▸ hmul)

theorem fieldVal_lt {cs : List Char} (h : allDigits cs = true) :
    fieldVal cs < 10 ^ cs.length := by
  have := fieldValAux_lt cs h 0
  rw [Nat.zero_add, Nat.one_mul] at this
  exact this

theorem parseField_bounds {lo hi : Nat} {cs : List Char} {v : Nat}
    (h : parseField lo hi cs = some v) : lo ≤ v ∧ v ≤ hi := by
  unfold parseField at h
  simp only [Option.ite_none_right_eq_some, Option.some.injEq] at h
  omega

theorem parseY4_bounds {cs : List Char} {y : Nat} (h : parseY4 cs = some y) :
    y < 10000 := by
  unfold parseY4 at h
  simp only [Option.ite_none_right_eq_some, Option.some.injEq] at h
  obtain ⟨⟨hd, hl⟩, rfl⟩ := h
  have := fieldVal_lt hd
  rw [hl] at this
  omega

theorem parseY2_bounds {cs : List Char} {y : Nat} (h : parseY2 cs = some y) :
    1900 ≤ y ∧ y ≤ 2068 := by
  unfold parseY2 at h
  simp only [Option.ite_none_right_eq_some, Option.some.injEq] at h
  obtain ⟨⟨hd, hl⟩, rfl⟩ := h
  have := fieldVal_lt hd
  rw [hl] at this
  split <;> omega

set_option maxHeartbeats 1000000 in
theorem daysInMonth_le_31 (y m : Nat) : daysInMonth y m ≤ 31 := by
  unfold daysInMonth
  split_ifs <;> omega

theorem dateValid_of_parseFmt {ord : FieldOrder} {sep : Char} {s : String}
    {dt : Date} (h : parseFmt ord sep s = some dt) :
    1 ≤ dt.year ∧ dt.year ≤ 9999 ∧ 1 ≤ dt.month ∧ dt.month ≤ 12 ∧
      1 ≤ dt.day ∧ dt.day ≤ daysInMonth dt.year dt.month := by
  unfold parseFmt at h
  split at h
  case h_2 => exact absurd h (by simp)
  case h_1 f1 f2 f3 =>
    cases ord with
    | ymd =>
      simp only at h
      split at h <;> rename_i heq
      rotate_left
      · exact absurd h (by simp)
      · rename_i y m d
        split at h
        rotate_left
        · exact absurd h (by simp)
        · injection h with h
          subst h
          rename_i hguard
          simp only [Option.bind_eq_some, Option.some.injEq, Prod.mk.injEq] at heq
          obtain ⟨a, ha, b, hb, c, hc, rfl, rfl, rfl⟩ := heq
          have h1 := parseY4_bounds ha
          have h2 := parseField_bounds hb
          have h3 := parseField_bounds hc
          refine ⟨hguard.1, ?_, ?_, ?_, ?_, hguard.2⟩ <;> dsimp only <;> omega
    | mdy =>
      simp only at h
      split at h <;> rename_i heq
      rotate_left
      · exact absurd h (by simp)
      · rename_i y m d
        split at h
        rotate_left
        · exact absurd h (by simp)
        · injection h with h
          subst h
          rename_i hguard
          simp only [Option.bind_eq_some, Option.some.injEq, Prod.mk.injEq] at heq
          obtain ⟨a, ha, b, hb, c, hc, rfl, rfl, rfl⟩ := heq
          have h1 := parseY4_bounds hc
          have h2 := parseField_bounds ha
          have h3 := parseField_bounds hb
          refine ⟨hguard.1, ?_, ?_, ?_, ?_, hguard.2⟩ <;> dsimp only <;> omega
    | dmy =>
      simp only at h
      split at h <;> rename_i heq
      rotate_left
      · exact absurd h (by simp)
      · rename_i y m d
        split at h
        rotate_left
        · exact absurd h (by simp)
        · injection h with h
          subst h
          rename_i hguard
          simp only [Option.bind_eq_some, Option.some.injEq, Prod.mk.injEq] at heq
          obtain ⟨a, ha, b, hb, c, hc, rfl, rfl, rfl⟩ := heq
          have h1 := parseY4_bounds hc
          have h2 := parseField_bounds ha
          have h3 := parseField_bounds hb
          refine ⟨hguard.1, ?_, ?_, ?_, ?_, hguard.2⟩ <;> dsimp only <;> omega
    | mdy2 =>
      simp only at h
      split at h <;> rename_i heq
      rotate_left
      · exact absurd h (by simp)
      · rename_i y m d
        split at h
        rotate_left
        · exact absurd h (by simp)
        · injection h with h
          subst h
          rename_i hguard
          simp only [Option.bind_eq_some, Option.some.injEq, Prod.mk.injEq] at heq
          obtain ⟨a, ha, b, hb, c, hc, rfl, rfl, rfl⟩ := heq
          have h1 := parseY2_bounds hc
          have h2 := parseField_bounds ha
          have h3 := parseField_bounds hb
          refine ⟨hguard.1, ?_, ?_, ?_, ?_, hguard.2⟩ <;> dsimp only <;> omega
    | dmy2 =>
      simp only at h
      split at h <;> rename_i heq
      rotate_left
      · exact absurd h (by simp)
      · rename_i y m d
        split at h
        rotate_left
        · exact absurd h (by simp)
        · injection h with h
          subst h
          rename_i hguard
          simp only [Option.bind_eq_some, Option.some.injEq, Prod.mk.injEq] at heq
          obtain ⟨a, ha, b, hb, c, hc, rfl, rfl, rfl⟩ := heq
          have h1 := parseY2_bounds hc
          have h2 := parseField_bounds ha
          have h3 := parseField_bounds hb
          refine ⟨hguard.1, ?_, ?_, ?_, ?_, hguard.2⟩ <;> dsimp only <;> omega

theorem splitOnChar_ne_nil (sep : Char) (l : List Char) :
    splitOnChar sep l ≠ [] := by
  cases l with
  | nil => simp [splitOnChar]
  | cons c rest =>
    unfold splitOnChar
    split
    · simp
    · split <;> simp

theorem splitOnChar_no_sep (sep : Char) :
    ∀ l : List Char, (∀ c ∈ l, c ≠ sep) → splitOnChar sep l = [l]
  | [], _ => rfl
  | c :: rest, h => by
    have hr := splitOnChar_no_sep sep rest (fun x hx => h x (List.mem_cons_of_mem c hx))
    unfold splitOnChar
    rw [hr]
    dsimp only
    rw [if_neg (h c (List.mem_cons_self c rest))]

theorem splitOnChar_append (sep : Char) :
    ∀ (l r : List Char), (∀ c ∈ l, c ≠ sep) →
      splitOnChar sep (l ++ sep :: r) = l :: splitOnChar sep r
  | [], r, _ => by
    have e : splitOnChar sep ([] ++ sep :: r) =
        match splitOnChar sep r with
        | [] => [[]]
        | g :: gs => if sep = sep then [] :: g :: gs else (sep :: g) :: gs := rfl
    rw [e]
    cases hsr : splitOnChar sep r with
    | nil => exact absurd hsr (splitOnChar_ne_nil sep r)
    | cons g gs =>
      dsimp only
      rw [if_pos rfl]
  | c :: l, r, h => by
    have hr := splitOnChar_append sep l r (fun x hx => h x (List.mem_cons_of_mem c hx))
    have e : splitOnChar sep ((c :: l) ++ sep :: r) =
        match splitOnChar sep (l ++ sep :: r) with
        | [] => [[]]
        | g :: gs => if c = sep then [] :: g :: gs else (c :: g) :: gs := rfl
    rw [e, hr]
    dsimp only
    rw [if_neg (h c (List.mem_cons_self c l))]

theorem digitVal_digitCharOf {n : Nat} (h : n < 10) :
    digitVal (digitCharOf n) = n := by
  interval_cases n <;> rfl

theorem isDigitChar_digitCharOf {n : Nat} (h : n < 10) :
    isDigitChar (digitCharOf n) = true := by
  interval_cases n <;> rfl

theorem digitCharOf_ne_dash {n : Nat} (h : n < 10) : digitCharOf n ≠ '-' := by
  interval_cases n <;> decide

theorem pad2chars_no_dash (n : Nat) : ∀ c ∈ pad2chars n, c ≠ '-' := by
  intro c hc
  simp only [pad2chars, List.mem_cons, List.not_mem_nil, or_false] at hc
  rcases hc with rfl | rfl <;>
    exact digitCharOf_ne_dash (Nat.mod_lt _ (by omega))

theorem pad4chars_no_dash (n : Nat) : ∀ c ∈ pad4chars n, c ≠ '-' := by
  intro c hc
  simp only [pad4chars, List.mem_cons, List.not_mem_nil, or_false] at hc
  rcases hc with rfl | rfl | rfl | rfl <;>
    exact digitCharOf_ne_dash (Nat.mod_lt _ (by omega))

theorem allDigits_pad2 (n : Nat) : allDigits (pad2chars n) = true := by
  simp only [allDigits, pad2chars, List.all_cons, List.all_nil,
    Bool.and_eq_true]
  refine ⟨?_, ?_, trivial⟩ <;>
    exact isDigitChar_digitCharOf (Nat.mod_lt _ (by omega))

theorem allDigits_pad4 (n : Nat) : allDigits (pad4chars n) = true := by
  simp only [allDigits, pad4chars, List.all_cons, List.all_nil,
    Bool.and_eq_true]
  refine ⟨?_, ?_, ?_, ?_, trivial⟩ <;>
    exact isDigitChar_digitCharOf (Nat.mod_lt _ (by omega))

theorem fieldVal_pad2 (n : Nat) (h : n ≤ 99) : fieldVal (pad2chars n) = n := by
  have e : fieldVal (pad2chars n) =
      (0 * 10 + digitVal (digitCharOf (n / 10 % 10))) * 10 +
        digitVal (digitCharOf (n % 10)) := rfl
  rw [e, digitVal_digitCharOf (Nat.mod_lt _ (by omega)),
    digitVal_digitCharOf (Nat.mod_lt _ (by omega))]
  omega

theorem fieldVal_pad4 (n : Nat) (h : n ≤ 9999) : fieldVal (pad4chars n) = n := by
  have e : fieldVal (pad4chars n) =
      (((0 * 10 + digitVal (digitCharOf (n / 1000 % 10))) * 10 +
        digitVal (digitCharOf (n / 100 % 10))) * 10 +
        digitVal (digitCharOf (n / 10 % 10))) * 10 +
        digitVal (digitCharOf (n % 10)) := rfl
  rw [e, digitVal_digitCharOf (Nat.mod_lt _ (by omega)),
    digitVal_digitCharOf (Nat.mod_lt _ (by omega)),
    digitVal_digitCharOf (Nat.mod_lt _ (by omega)),
    digitVal_digitCharOf (Nat.mod_lt _ (by omega))]
  omega

theorem formatYMD_toList (dt : Date) :
    (formatYMD dt).toList =
      pad4chars dt.year ++ '-' :: (pad2chars dt.month ++ '-' :: pad2chars dt.day) := rfl

theorem formatYMD_ne_empty (dt : Date) : formatYMD dt ≠ "" := by
  intro h
  have h2 : (formatYMD dt).toList = "".toList := congrArg String.toList h
  rw [formatYMD_toList] at h2
  have h3 : "".toList = ([] : List Char) := rfl
  rw [h3] at h2
  simp [pad4chars] at h2

theorem parse_formatYMD {dt : Date}
    (h1 : 1 ≤ dt.year) (h2 : dt.year ≤ 9999) (h3 : 1 ≤ dt.month)
    (h4 : dt.month ≤ 12) (h5 : 1 ≤ dt.day)
    (h6 : dt.day ≤ daysInMonth dt.year dt.month) :
    parse_flexible (some (formatYMD dt)) = some dt := by
  have hsplit : splitOnChar '-' (formatYMD dt).toList =
      [pad4chars dt.year, pad2chars dt.month, pad2chars dt.day] := by
    rw [formatYMD_toList]
    rw [splitOnChar_append '-' _ _ (pad4chars_no_dash dt.year)]
    rw [splitOnChar_append '-' _ _ (pad2chars_no_dash dt.month)]
    rw [splitOnChar_no_sep '-' _ (pad2chars_no_dash dt.day)]
  have hy : parseY4 (pad4chars dt.year) = some dt.year := by
    unfold parseY4
    rw [if_pos ⟨allDigits_pad4 _, rfl⟩]
    rw [fieldVal_pad4 _ h2]
  have hm : parseField 1 12 (pad2chars dt.month) = some dt.month := by
    unfold parseField
    rw [fieldVal_pad2 _ (by omega)]
    rw [if_pos ⟨allDigits_pad2 _, Or.inr rfl⟩, if_pos ⟨h3, h4⟩]
  have hd : parseField 1 31 (pad2chars dt.day) = some dt.day := by
    have h31 := daysInMonth_le_31 dt.year dt.month
    unfold parseField
    rw [fieldVal_pad2 _ (by omega)]
    rw [if_pos ⟨allDigits_pad2 _, Or.inr rfl⟩, if_pos ⟨h5, by omega⟩]
  have hfmt : parseFmt .ymd '-' (formatYMD dt) = some dt := by
    unfold parseFmt
    rw [hsplit]
    dsimp only
    rw [hy, hm, hd]
    dsimp only [Option.bind]
    rw [if_pos ⟨h1, h6⟩]
  unfold parse_flexible
  dsimp only
  rw [if_neg (formatYMD_ne_empty dt), hfmt]

theorem dateValid_of_tryFormats :
    ∀ (fmts : List (FieldOrder × Char)) (s : String) (dt : Date),
      tryFormats fmts s = some dt →
      1 ≤ dt.year ∧ dt.year ≤ 9999 ∧ 1 ≤ dt.month ∧ dt.month ≤ 12 ∧
        1 ≤ dt.day ∧ dt.day ≤ daysInMonth dt.year dt.month
  | [], _, _, h => by simp [tryFormats] at h
  | (ord, sep) :: rest, s, dt, h => by
    unfold tryFormats at h
    split at h
    · rename_i heq
      injection h with h
      subst h
      exact dateValid_of_parseFmt heq
    · exact dateValid_of_tryFormats rest s dt h

theorem dateValid_of_parse_flexible {ds : Option String} {dt : Date}
    (h : parse_flexible ds = some dt) :
    1 ≤ dt.year ∧ dt.year ≤ 9999 ∧ 1 ≤ dt.month ∧ dt.month ≤ 12 ∧
      1 ≤ dt.day ∧ dt.day ≤ daysInMonth dt.year dt.month := by
  unfold parse_flexible at h
  match ds with
  | none => exact absurd h (by simp)
  | some s =>
    dsimp only at h
    split at h
    · exact absurd h (by simp)
    · split at h
      · rename_i heq
        injection h with h
        subst h
        exact dateValid_of_parseFmt heq
      · exact dateValid_of_tryFormats _ s dt h

/-- Claim C8: a date parsed by `parse_flexible` re-parses from its own
canonical rendering `strftime('%Y-%m-%d')` to an equal date: the round trip
is the identity on every parse result.  (The complementary half of the
claim, that an unparseable string yields null and no exception escapes, is
definitional here: `parse_flexible` is a total function into `Option`.) -/
theorem parse_flexible_roundtrip (ds : Option String) (dt : Date)
    (h : parse_flexible ds = some dt) :
    parse_flexible (some (formatYMD dt)) = some dt := by
  obtain ⟨h1, h2, h3, h4, h5, h6⟩ := dateValid_of_parse_flexible h
  exact parse_formatYMD h1 h2 h3 h4 h5 h6

/-- Witness for C8 at the concrete input "2024-05-06". -/
theorem parse_flexible_roundtrip_witness :
    parse_flexible (some (formatYMD ⟨2024, 5, 6⟩)) = some ⟨2024, 5, 6⟩ :=
  parse_flexible_roundtrip (some "2024-05-06") ⟨2024, 5, 6⟩ (by decide)

/-- Counterexample to claim C6: the claim lists the formats `%Y-%m-%d`,
`%m/%d/%Y`, `%m/%d/%y`, `%m-%d-%Y`, `%m-%d-%y`, `%d/%m/%Y`, `%d/%m/%y`,
but `parse_flexible` rejects the two-digit-year string "01/02/25" that the
claimed list would parse, and accepts "2024/05/06" via the `%Y/%m/%d`
format that the claimed list omits. -/
theorem parse_flexible_formats_counterexample :
    parse_flexible (some "01/02/25") = none ∧
      specClaimParseFlexible (some "01/02/25") = some ⟨2025, 1, 2⟩ ∧
      parse_flexible (some "2024/05/06") = some ⟨2024, 5, 6⟩ ∧
      specClaimParseFlexible (some "2024/05/06") = none := by
  refine ⟨by decide, by decide, by decide, by decide⟩

/-- Claim C6 as amended: `parse_flexible` returns null on null/empty input
and otherwise tries, in order, the formats `%Y-%m-%d`, `%m/%d/%Y`,
`%d/%m/%Y`, `%Y/%m/%d`, `%m-%d-%Y`, returning the first successful parse,
null on total failure, and never surfacing an exception (it is a total
function into `Option`). -/
theorem parse_flexible_formats_amended (ds : Option String) :
    parse_flexible ds = specAmendedParseFlexible ds := by
  cases ds with
  | none => rfl
  | some s => rfl

/-- The applicability flag of the equipment for the requested PM type
(`has_monthly` for Monthly, `has_annual` for Annual). -/
def pmFlag (equipment : Equipment) : PMType → Bool
  | .MONTHLY => equipment.has_monthly
  | .ANNUAL => equipment.has_annual

/-- Claim C1: whenever the applicability flag holds and the uncompleted
prior-week lookup for this (equipment, PM type) is non-empty, the result is
`CONFLICTED` — unconditionally in every other component of the state, so in
particular also in states where the generic due-date rule would say `DUE`,
and irrespective of the annual override, recent completions, cross-type
conflicts, or this-week schedules (the rules checked later). -/
theorem check_eligibility_prior_week_conflict (repo : Repo) (now : Int)
    (equipment : Equipment) (pm_type : PMType) (week_start : Date)
    (hflag : pmFlag equipment pm_type = true)
    (hunc : repo.uncompleted equipment.bfm_no pm_type week_start ≠ []) :
    (check_eligibility repo now equipment pm_type week_start).status =
      PMStatus.CONFLICTED := by
  cases hu : repo.uncompleted equipment.bfm_no pm_type week_start with
  | nil => exact absurd hu hunc
  | cons u us =>
    cases pm_type with
    | MONTHLY =>
      have hf : equipment.has_monthly = true := hflag
      simp [check_eligibility, hu, hf]
    | ANNUAL =>
      have hf : equipment.has_annual = true := hflag
      simp [check_eligibility, hu, hf]

def repoW1 : Repo where
  uncompleted := fun _ _ _ => [⟨"2025-01-06", "Alice", "Scheduled", "2025-01-08"⟩]
  next_annual := fun _ => none
  completions := fun _ => []
  scheduled := fun _ _ => []

def eqW1 : Equipment := ⟨"E1", "Pump", true, false, none, none, "Active", 99⟩

/-- Witness for C1: a concrete state with an uncompleted prior-week Monthly
schedule; the generic due-date rule alone would say `DUE` (never completed),
yet the eligibility result is `CONFLICTED`. -/
theorem check_eligibility_prior_week_conflict_witness :
    (check_eligibility repoW1 0 eqW1 PMType.MONTHLY ⟨2025, 1, 20⟩).status =
      PMStatus.CONFLICTED ∧
    (check_due_date 0 eqW1 PMType.MONTHLY []).status = PMStatus.DUE :=
  ⟨check_eligibility_prior_week_conflict repoW1 0 eqW1 PMType.MONTHLY
      ⟨2025, 1, 20⟩ (by decide) (by decide), by decide⟩

/-- Claim C10: every elapsed-day computation in `check_eligibility` is
driven by the current time `now`, never by the target week; the target week
enters only through the uncompleted-prior-week lookup and the
scheduled-this-week lookup, so two calls against the same state whose two
lookups agree yield identical results. -/
theorem check_eligibility_week_independence (repo : Repo) (now : Int)
    (equipment : Equipment) (pm_type : PMType) (w1 w2 : Date)
    (h1 : repo.uncompleted equipment.bfm_no pm_type w1 =
      repo.uncompleted equipment.bfm_no pm_type w2)
    (h2 : repo.scheduled w1 equipment.bfm_no =
      repo.scheduled w2 equipment.bfm_no) :
    check_eligibility repo now equipment pm_type w1 =
      check_eligibility repo now equipment pm_type w2 := by
  unfold check_eligibility eligibility_tail
  rw [h1, h2]

def repoW10 : Repo where
  uncompleted := fun _ _ _ => []
  next_annual := fun _ => none
  completions := fun _ => [⟨"E1", PMType.MONTHLY, ⟨2025, 1, 2⟩, "Bob"⟩]
  scheduled := fun _ _ => []

def eqW10 : Equipment := ⟨"E1", "Press", true, true, none, none, "Active", 2⟩

/-- Witness for C10: two different target weeks, identical lookup results,
identical eligibility outcome. -/
theorem check_eligibility_week_independence_witness :
    check_eligibility repoW10 0 eqW10 PMType.MONTHLY ⟨2025, 1, 6⟩ =
      check_eligibility repoW10 0 eqW10 PMType.MONTHLY ⟨2025, 1, 13⟩ :=
  check_eligibility_week_independence repoW10 0 eqW10 PMType.MONTHLY
    ⟨2025, 1, 6⟩ ⟨2025, 1, 13⟩ rfl rfl

theorem abs_min_zero (x : Int) : |min x 0| = max 0 (-x) := by
  rcases le_total x 0 with h | h
  · rw [min_eq_left h, max_eq_right (by omega), abs_of_nonpos h]
  · rw [min_eq_right h, max_eq_left (by omega), abs_zero]

/-- Claim C3 as amended: in an Annual check where the equipment requires
Annual PM, no uncompleted prior-week schedule exists, and the equipment
carries a parseable non-empty next-annual-PM date: more than 7 computed
days in the future gives `NOT_DUE`; computed days-until in `[-30, 7]` gives
`DUE` with score `500 + max 0 (-days_until) * 10` and `days_overdue =
max 0 (-days_until)`; more than 30 days overdue makes the override fall
through, the result being identical to the same state with no
next-annual-PM date at all.  (The applicability and no-prior-week-conflict
preconditions are forced: rules 1 and 2 run before the override.) -/
theorem annual_override_amended (repo : Repo) (now : Int)
    (equipment : Equipment) (week_start : Date) (s : String) (dt : Date)
    (hflag : equipment.has_annual = true)
    (hunc : repo.uncompleted equipment.bfm_no PMType.ANNUAL week_start = [])
    (hna : repo.next_annual equipment.bfm_no = some s)
    (hs : s ≠ "")
    (hparse : parse_flexible (some s) = some dt) :
    (7 < daysUntil now dt →
      (check_eligibility repo now equipment PMType.ANNUAL week_start).status =
        PMStatus.NOT_DUE) ∧
    (-30 ≤ daysUntil now dt → daysUntil now dt ≤ 7 →
      (check_eligibility repo now equipment PMType.ANNUAL week_start).status =
          PMStatus.DUE ∧
        (check_eligibility repo now equipment PMType.ANNUAL
            week_start).priority_score =
          500 + max 0 (-daysUntil now dt) * 10 ∧
        (check_eligibility repo now equipment PMType.ANNUAL
            week_start).days_overdue =
          max 0 (-daysUntil now dt)) ∧
    (daysUntil now dt < -30 →
      check_eligibility repo now equipment PMType.ANNUAL week_start =
        check_eligibility { repo with next_annual := fun _ => none } now
          equipment PMType.ANNUAL week_start) := by
  refine ⟨fun h7 => ?_, fun hlo hhi => ?_, fun h30 => ?_⟩
  · simp [check_eligibility, annual_override_check, hflag, hunc, hna, hs,
      hparse, h7]
  · have h7 : ¬(7 < daysUntil now dt) := by omega
    refine ⟨?_, ?_, ?_⟩ <;>
      simp [check_eligibility, annual_override_check, hflag, hunc, hna, hs,
        hparse, h7, hlo, abs_min_zero]
  · have h7 : ¬(7 < daysUntil now dt) := by omega
    have hlo : ¬(-30 ≤ daysUntil now dt) := by omega
    simp [check_eligibility, annual_override_check, eligibility_tail, hflag,
      hunc, hna, hs, hparse, h7, hlo]

def repoCE3 : Repo where
  uncompleted := fun _ _ _ => [⟨"1970-01-05", "Carol", "Scheduled", "1970-01-07"⟩]
  next_annual := fun _ => some "1970-04-11"
  completions := fun _ => []
  scheduled := fun _ _ => []

def eqCE3 : Equipment := ⟨"E3", "Crane", false, true, none, none, "Active", 99⟩

/-- Counterexample to claim C3 as stated: the equipment carries a parseable
next-annual-PM date more than 7 computed days in the future, yet the result
is `CONFLICTED`, not `NOT_DUE` — the prior-week-conflict rule runs before
the override. -/
theorem annual_override_counterexample :
    repoCE3.next_annual eqCE3.bfm_no = some "1970-04-11" ∧
    parse_flexible (some "1970-04-11") = some ⟨1970, 4, 11⟩ ∧
    7 < daysUntil 0 ⟨1970, 4, 11⟩ ∧
    (check_eligibility repoCE3 0 eqCE3 PMType.ANNUAL ⟨1970, 1, 12⟩).status =
      PMStatus.CONFLICTED ∧
    (check_eligibility repoCE3 0 eqCE3 PMType.ANNUAL ⟨1970, 1, 12⟩).status ≠
      PMStatus.NOT_DUE := by
  refine ⟨rfl, by decide, by decide, by decide, by decide⟩

def repoW3 : Repo where
  uncompleted := fun _ _ _ => []
  next_annual := fun _ => some "1970-04-11"
  completions := fun _ => []
  scheduled := fun _ _ => []

/-- Witness for the amended C3: with no prior-week conflict the same
far-future next-annual date does give `NOT_DUE`. -/
theorem annual_override_amended_witness :
    (check_eligibility repoW3 0 eqCE3 PMType.ANNUAL ⟨1970, 1, 12⟩).status =
      PMStatus.NOT_DUE :=
  (annual_override_amended repoW3 0 eqCE3 ⟨1970, 1, 12⟩ "1970-04-11"
      ⟨1970, 4, 11⟩ (by decide) rfl rfl (by decide) (by decide)).1 (by decide)

theorem latestCompletion_le :
    ∀ (cs : List CompletionRecord) (c x : CompletionRecord), x ∈ c :: cs →
      dateToTs x.completion_date ≤
        dateToTs (latestCompletion c cs).completion_date
  | [], c, x, hx => by
    rcases List.mem_cons.mp hx with rfl | h
    · exact le_refl _
    · exact absurd h (List.not_mem_nil x)
  | y :: ys, c, x, hx => by
    have step : latestCompletion c (y :: ys) =
        latestCompletion
          (if dateToTs c.completion_date < dateToTs y.completion_date then y
           else c) ys := rfl
    rw [step]
    have hstep : dateToTs x.completion_date ≤
        dateToTs (if dateToTs c.completion_date <
            dateToTs y.completion_date then y
          else c).completion_date ∨ x ∈ ys := by
      rcases List.mem_cons.mp hx with rfl | hx2
      · left; split <;> omega
      · rcases List.mem_cons.mp hx2 with rfl | hx3
        · left; split <;> omega
        · right; exact hx3
    rcases hstep with hle | hmem
    · exact le_trans hle (latestCompletion_le ys _ _ (List.mem_cons_self _ _))
    · exact latestCompletion_le ys _ x (List.mem_cons_of_mem _ hmem)

theorem daysSince_anti {now a b : Int} (h : a ≤ b) :
    tdDays (now - b) ≤ tdDays (now - a) := by
  unfold tdDays
  rw [Int.fdiv_eq_ediv _ (by omega), Int.fdiv_eq_ediv _ (by omega)]
  omega

/-- Claim C7 as amended: a same-type completion `d` days ago with
`d < min_interval` (30 Monthly, 365 Annual) forces `RECENTLY_COMPLETED`
regardless of the equipment priority class, provided the PM type applies to
the equipment, no uncompleted prior-week schedule exists, and (Annual only)
the next-annual-date override does not decide the result — the rules that
run before the recently-completed rule. -/
theorem recently_completed_amended (repo : Repo) (now : Int)
    (equipment : Equipment) (pm_type : PMType) (week_start : Date)
    (c : CompletionRecord)
    (hflag : pmFlag equipment pm_type = true)
    (hunc : repo.uncompleted equipment.bfm_no pm_type week_start = [])
    (hov : pm_type = PMType.ANNUAL →
      annual_override_check repo now equipment = none)
    (hmem : c ∈ repo.completions equipment.bfm_no)
    (hty : c.pm_type = pm_type)
    (hd : daysSince now c.completion_date < get_minimum_interval pm_type) :
    (check_eligibility repo now equipment pm_type week_start).status =
      PMStatus.RECENTLY_COMPLETED := by
  have hmemf : c ∈ (repo.completions equipment.bfm_no).filter
      (fun x => decide (x.pm_type = pm_type)) :=
    List.mem_filter.mpr ⟨hmem, by simp [hty]⟩
  have htail : (eligibility_tail repo now equipment pm_type week_start).status =
      PMStatus.RECENTLY_COMPLETED := by
    simp only [eligibility_tail]
    cases hst : (repo.completions equipment.bfm_no).filter
        (fun x => decide (x.pm_type = pm_type)) with
    | nil => rw [hst] at hmemf; exact absurd hmemf (List.not_mem_nil c)
    | cons c0 cs =>
      rw [hst] at hmemf
      have hts := latestCompletion_le cs c0 c hmemf
      have hds : daysSince now (latestCompletion c0 cs).completion_date ≤
          daysSince now c.completion_date := daysSince_anti hts
      dsimp only
      rw [if_pos (by omega :
        daysSince now (latestCompletion c0 cs).completion_date <
          get_minimum_interval pm_type)]
  cases pm_type with
  | MONTHLY =>
    have hf : equipment.has_monthly = true := hflag
    simpa [check_eligibility, hunc, hf] using htail
  | ANNUAL =>
    have hf : equipment.has_annual = true := hflag
    simpa [check_eligibility, hunc, hf, hov rfl] using htail

def repoCE7 : Repo where
  uncompleted := fun _ _ _ => [⟨"1970-01-05", "Dave", "Scheduled", "1970-01-07"⟩]
  next_annual := fun _ => none
  completions := fun _ => [⟨"E7", PMType.MONTHLY, ⟨1970, 1, 10⟩, "Dave"⟩]
  scheduled := fun _ _ => []

def eqCE7 : Equipment := ⟨"E7", "Mill", true, false, none, none, "Active", 1⟩

/-- Counterexample to claim C7 as stated: a Monthly completion 5 days ago
(well under the 30-day minimum interval) does not force
`RECENTLY_COMPLETED` — an uncompleted prior-week schedule makes the result
`CONFLICTED` because the prior-week rule runs first. -/
theorem recently_completed_counterexample :
    (⟨"E7", PMType.MONTHLY, ⟨1970, 1, 10⟩, "Dave"⟩ : CompletionRecord) ∈
        repoCE7.completions eqCE7.bfm_no ∧
    daysSince (14 * 86400) (⟨1970, 1, 10⟩ : Date) = 5 ∧
    (5 : Int) < get_minimum_interval PMType.MONTHLY ∧
    (check_eligibility repoCE7 (14 * 86400) eqCE7 PMType.MONTHLY
        ⟨1970, 1, 12⟩).status = PMStatus.CONFLICTED ∧
    (check_eligibility repoCE7 (14 * 86400) eqCE7 PMType.MONTHLY
        ⟨1970, 1, 12⟩).status ≠ PMStatus.RECENTLY_COMPLETED := by
  refine ⟨by decide, by decide, by decide, by decide, by decide⟩

def repoW7 : Repo where
  uncompleted := fun _ _ _ => []
  next_annual := fun _ => none
  completions := fun _ => [⟨"E7", PMType.MONTHLY, ⟨1970, 1, 10⟩, "Dave"⟩]
  scheduled := fun _ _ => []

/-- Witness for the amended C7: same recent completion, no prior-week
conflict, result `RECENTLY_COMPLETED` (equipment priority class 1). -/
theorem recently_completed_amended_witness :
    (check_eligibility repoW7 (14 * 86400) eqCE7 PMType.MONTHLY
        ⟨1970, 1, 12⟩).status = PMStatus.RECENTLY_COMPLETED :=
  recently_completed_amended repoW7 (14 * 86400) eqCE7 PMType.MONTHLY
    ⟨1970, 1, 12⟩ ⟨"E7", PMType.MONTHLY, ⟨1970, 1, 10⟩, "Dave"⟩
    (by decide) rfl (by simp) (by decide) rfl (by decide)

/-- The overdue-band priority formula of `_check_due_date` (line 448). -/
def overdueBandScore (days_overdue : Int) : Int :=
  min (500 + days_overdue * 10) 999

/-- Claim C2 as amended: with no same-type completion in the 400-day window,
no parseable last-completion date, and every earlier rule passing (reaching
the generic due-date rule), the result is `DUE` with score exactly 1000
(Monthly) or 900 (Annual).  The Monthly score 1000 strictly exceeds every
overdue-band score; the Annual score 900 strictly exceeds the overdue-band
scores only for `days_overdue < 40` (not for all values under ~50 as
claimed). -/
theorem never_completed_priority_amended (repo : Repo) (now : Int)
    (equipment : Equipment) (pm_type : PMType) (week_start : Date)
    (hflag : pmFlag equipment pm_type = true)
    (hunc : repo.uncompleted equipment.bfm_no pm_type week_start = [])
    (hov : pm_type = PMType.ANNUAL →
      annual_override_check repo now equipment = none)
    (hcomp : (repo.completions equipment.bfm_no).filter
      (fun c => decide (c.pm_type = pm_type)) = [])
    (hlast : parse_flexible (if pm_type = PMType.MONTHLY then
      equipment.last_monthly_date else equipment.last_annual_date) = none)
    (hcross : (check_cross_pm_conflicts now
      (repo.completions equipment.bfm_no) pm_type).status ≠
        PMStatus.CONFLICTED)
    (hsched : (repo.scheduled week_start equipment.bfm_no).any
      (fun s => decide (s.pm_type = pm_type.value)) = false) :
    (check_eligibility repo now equipment pm_type week_start).status =
        PMStatus.DUE ∧
    (check_eligibility repo now equipment pm_type week_start).priority_score =
        (if pm_type = PMType.MONTHLY then 1000 else 900) ∧
    (∀ d : Int, overdueBandScore d < 1000) ∧
    (∀ d : Int, d < 40 → overdueBandScore d < 900) := by
  have hband1 : ∀ d : Int, overdueBandScore d < 1000 := fun d => by
    unfold overdueBandScore
    rcases le_total (500 + d * 10) 999 with h | h
    · rw [min_eq_left h]; omega
    · rw [min_eq_right h]; omega
  have hband2 : ∀ d : Int, d < 40 → overdueBandScore d < 900 := fun d hd => by
    unfold overdueBandScore
    have : 500 + d * 10 ≤ 890 := by omega
    rcases le_total (500 + d * 10) 999 with h | h
    · rw [min_eq_left h]; omega
    · rw [min_eq_right h]; omega
  have hdue : check_due_date now equipment pm_type
      (repo.completions equipment.bfm_no) =
      ⟨PMStatus.DUE, pm_type.value ++ " PM never completed - HIGH PRIORITY",
        if pm_type = PMType.MONTHLY then 1000 else 900, 0⟩ := by
    simp only [check_due_date, hcomp]
    rw [hlast]
  have htail : eligibility_tail repo now equipment pm_type week_start =
      check_due_date now equipment pm_type
        (repo.completions equipment.bfm_no) := by
    simp only [eligibility_tail, hcomp]
    rw [if_neg hcross]
    simp [hsched]
  cases pm_type with
  | MONTHLY =>
    have hf : equipment.has_monthly = true := hflag
    refine ⟨?_, ?_, hband1, hband2⟩ <;>
      simp [check_eligibility, hunc, hf, htail, hdue]
  | ANNUAL =>
    have hf : equipment.has_annual = true := hflag
    refine ⟨?_, ?_, hband1, hband2⟩ <;>
      simp [check_eligibility, hunc, hf, hov rfl, htail, hdue]

def repoW2 : Repo where
  uncompleted := fun _ _ _ => []
  next_annual := fun _ => none
  completions := fun _ => []
  scheduled := fun _ _ => []

def eqW2 : Equipment := ⟨"E2", "Oven", false, true, none, none, "Active", 99⟩

def eqCE2 : Equipment :=
  ⟨"E2b", "Dryer", false, true, none, some "1970-01-01", "Active", 99⟩

/-- Counterexample to claim C2 as stated: the Annual never-completed score
900 is not strictly higher than every overdue-band score for
`days_overdue` under ~50 — at `days_overdue = 45` (a full eligibility
result produced by the same checker) the band formula yields 950 > 900. -/
theorem never_completed_priority_counterexample :
    (check_eligibility repoW2 (410 * 86400) eqCE2 PMType.ANNUAL
        ⟨1971, 2, 22⟩).days_overdue = 45 ∧
    (check_eligibility repoW2 (410 * 86400) eqCE2 PMType.ANNUAL
        ⟨1971, 2, 22⟩).priority_score = 950 ∧
    (check_eligibility repoW2 (410 * 86400) eqW2 PMType.ANNUAL
        ⟨1971, 2, 22⟩).priority_score = 900 ∧
    overdueBandScore 45 = 950 ∧ (45 : Int) < 50 ∧ ¬(950 : Int) < 900 := by
  refine ⟨by decide, by decide, by decide, by decide, by decide, by decide⟩

/-- Witness for the amended C2: a never-completed Annual state reaching the
generic rule yields `DUE` with score exactly 900. -/
theorem never_completed_priority_amended_witness :
    (check_eligibility repoW2 (410 * 86400) eqW2 PMType.ANNUAL
        ⟨1971, 2, 22⟩).status = PMStatus.DUE ∧
    (check_eligibility repoW2 (410 * 86400) eqW2 PMType.ANNUAL
        ⟨1971, 2, 22⟩).priority_score =
      (if PMType.ANNUAL = PMType.MONTHLY then 1000 else 900) ∧
    (∀ d : Int, overdueBandScore d < 1000) ∧
    (∀ d : Int, d < 40 → overdueBandScore d < 900) :=
  never_completed_priority_amended repoW2 (410 * 86400) eqW2 PMType.ANNUAL
    ⟨1971, 2, 22⟩ (by decide) rfl (fun _ => rfl) rfl (by decide)
    (by decide) rfl

/-- The score bands that claim C9 asserts for every `DUE` result of the
generic due-date check: exactly 1000 or 900 (never completed), the overdue
band `[510, 999]`, or the fresh-due band `[295, 300]`. -/
def scoreInBands (r : PMEligibilityResult) : Prop :=
  r.priority_score = 1000 ∨ r.priority_score = 900 ∨
    (510 ≤ r.priority_score ∧ r.priority_score ≤ 999) ∨
    (295 ≤ r.priority_score ∧ r.priority_score ≤ 300)

/-- Claim C9: the priority-200 fallback branch of `_check_due_date` is
unreachable (whenever `days_since` exceeds `max_days`, the overdue branch
has already fired because the ideal frequency 30/365 is at most the
`max_days` bound 35/370), so every `DUE` result of the generic due-date
check scores exactly 1000 or 900 (never completed), inside the overdue
band `[510, 999]`, or inside the fresh-due band `[295, 300]` — never
200. -/
theorem check_due_date_score_bands (now : Int) (equipment : Equipment)
    (pm_type : PMType) (recent : List CompletionRecord)
    (h : (check_due_date now equipment pm_type recent).status = PMStatus.DUE) :
    scoreInBands (check_due_date now equipment pm_type recent) := by
  revert h
  suffices hgen : ∀ r, check_due_date now equipment pm_type recent = r →
      r.status = PMStatus.DUE → scoreInBands r by
    exact fun h => hgen _ rfl h
  intro r hr
  cases pm_type with
  | MONTHLY =>
    simp only [check_due_date, ite_true, ite_false, reduceCtorEq] at hr
    split at hr
    · subst hr
      intro _
      left
      rfl
    · split at hr
      · split at hr
        · subst hr
          intro _
          right; right; left
          rename_i hmin hdov
          dsimp only
          exact ⟨le_min (by omega) (by omega), min_le_right _ _⟩
        · split at hr
          · subst hr
            intro _
            right; right; right
            rename_i hmin hdov hmax
            dsimp only
            have e : daysSince now ‹Date› - 30 = 0 := by omega
            rw [e, abs_zero]
            omega
          · subst hr
            intro _
            rename_i hmin hdov hmax
            exact absurd hmin (by omega)
      · subst hr
        intro hbad
        simp at hbad
  | ANNUAL =>
    simp only [check_due_date, ite_true, ite_false, reduceCtorEq] at hr
    split at hr
    · subst hr
      intro _
      right; left
      rfl
    · split at hr
      · split at hr
        · subst hr
          intro _
          right; right; left
          rename_i hmin hdov
          dsimp only
          exact ⟨le_min (by omega) (by omega), min_le_right _ _⟩
        · split at hr
          · subst hr
            intro _
            right; right; right
            rename_i hmin hdov hmax
            dsimp only
            have e : daysSince now ‹Date› - 365 = 0 := by omega
            rw [e, abs_zero]
            omega
          · subst hr
            intro _
            rename_i hmin hdov hmax
            exact absurd hmin (by omega)
      · subst hr
        intro hbad
        simp at hbad

def eqW9 : Equipment := ⟨"E9", "Saw", true, false, none, none, "Active", 99⟩

/-- Witness for C9 at a concrete never-completed Monthly state. -/
theorem check_due_date_score_bands_witness :
    scoreInBands (check_due_date 0 eqW9 PMType.MONTHLY []) :=
  check_due_date_score_bands 0 eqW9 PMType.MONTHLY [] (by decide)

instance assignLE_total (m : List (String × Int)) :
    IsTotal PMAssignment (assignLE m) :=
  ⟨fun a b => by unfold assignLE; omega⟩

instance assignLE_trans (m : List (String × Int)) :
    IsTrans PMAssignment (assignLE m) :=
  ⟨fun a b c hab hbc => by
    unfold assignLE at hab hbc ⊢
    omega⟩

/-- Claim C4: `generate_assignments` returns at most `max_assignments`
entries, and any earlier entry `a` relates to any later entry `b` by
`assignLE`: the priority class of `a` (from the map the run builds, default
99) is strictly smaller than that of `b`, or the classes are equal and the
priority score of `a` is at least that of `b`. -/
theorem generate_assignments_cap_and_order (repo : Repo) (now : Int)
    (equipment_list : List Equipment) (week_start : Date)
    (max_assignments : Nat) :
    (generate_assignments repo now equipment_list week_start
        max_assignments).length ≤ max_assignments ∧
    (generate_assignments repo now equipment_list week_start
        max_assignments).Pairwise
      (assignLE (equipment_list.foldl (genStep repo now week_start)
        ([], [])).1) := by
  unfold generate_assignments
  constructor
  · rw [List.length_take]
    exact min_le_left _ _
  · exact List.Pairwise.sublist (List.take_sublist _ _)
      (List.sorted_insertionSort _ _)

theorem genStep_snd (repo : Repo) (now : Int) (week_start : Date)
    (st : List (String × Int) × List PMAssignment) (e : Equipment) :
    (genStep repo now week_start st e).2 = st.2 ∨
      ∃ x : PMAssignment, (genStep repo now week_start st e).2 = st.2 ++ [x] ∧
        x.bfm_no = e.bfm_no := by
  unfold genStep
  split
  rotate_left
  · left; rfl
  · dsimp only
    by_cases hm : e.has_monthly = true ∧
        (check_eligibility repo now e PMType.MONTHLY week_start).status =
          PMStatus.DUE
    · rw [if_pos hm]
      have hany : (st.2 ++ [(⟨e.bfm_no, PMType.MONTHLY, e.description,
          (check_eligibility repo now e PMType.MONTHLY
            week_start).priority_score,
          (check_eligibility repo now e PMType.MONTHLY week_start).reason⟩ :
            PMAssignment)]).any
          (fun a => decide (a.bfm_no = e.bfm_no ∧
            a.pm_type = PMType.MONTHLY)) = true := by
        simp [List.any_append]
      rw [hany]
      rw [if_neg (by simp)]
      right
      exact ⟨_, rfl, rfl⟩
    · rw [if_neg hm]
      by_cases ha : e.has_annual = true ∧
          (st.2.any (fun a => decide (a.bfm_no = e.bfm_no ∧
            a.pm_type = PMType.MONTHLY))) = false ∧
          (check_eligibility repo now e PMType.ANNUAL week_start).status =
            PMStatus.DUE
      · rw [if_pos ⟨ha.1, ha.2.1, ha.2.2⟩]
        right
        exact ⟨_, rfl, rfl⟩
      · rw [if_neg ha]
        left
        rfl

theorem genFold_pairwise (repo : Repo) (now : Int) (week_start : Date) :
    ∀ (l : List Equipment) (st : List (String × Int) × List PMAssignment),
      (l.map Equipment.bfm_no).Nodup →
      st.2.Pairwise (fun a b => a.bfm_no ≠ b.bfm_no) →
      (∀ a ∈ st.2, a.bfm_no ∉ l.map Equipment.bfm_no) →
      (l.foldl (genStep repo now week_start) st).2.Pairwise
        (fun a b => a.bfm_no ≠ b.bfm_no)
  | [], _, _, hp, _ => hp
  | e :: l, st, hnd, hp, hdisj => by
    have hfold : (e :: l).foldl (genStep repo now week_start) st =
        l.foldl (genStep repo now week_start)
          (genStep repo now week_start st e) := rfl
    rw [hfold]
    rw [List.map_cons, List.nodup_cons] at hnd
    have hne : e.bfm_no ∉ l.map Equipment.bfm_no := hnd.1
    have hdisj2 : ∀ a ∈ st.2, a.bfm_no ∉ l.map Equipment.bfm_no := by
      intro a ha hmem
      exact hdisj a ha (by simp [hmem])
    have hdhead : ∀ a ∈ st.2, a.bfm_no ≠ e.bfm_no := by
      intro a ha heq
      exact hdisj a ha (by simp [heq])
    rcases genStep_snd repo now week_start st e with hcase | ⟨x, hcase, hx⟩
    · exact genFold_pairwise repo now week_start l _ hnd.2
        (hcase ▸ hp) (hcase ▸ hdisj2)
    · refine genFold_pairwise repo now week_start l _ hnd.2 ?_ ?_
      · rw [hcase]
        refine List.pairwise_append.mpr
          ⟨hp, List.pairwise_singleton _ _, ?_⟩
        intro a ha b hb
        have hbx : b = x := by simpa using hb
        rw [hbx, hx]
        exact hdhead a ha
      · rw [hcase]
        intro a ha
        rcases List.mem_append.mp ha with h1 | h2
        · exact hdisj2 a h1
        · have hax : a = x := by simpa using h2
          rw [hax, hx]
          exact hne

/-- Claim C5: in every `generate_assignments` run over a roster whose
equipment codes are unique (the data-model identity invariant), each
equipment code appears at most once per PM type in the output, and no code
appears with both a Monthly and an Annual assignment — the generator skips
the Annual check whenever a Monthly assignment for the same equipment was
already collected in the run. -/
theorem generate_assignments_unique_per_type (repo : Repo) (now : Int)
    (equipment_list : List Equipment) (week_start : Date)
    (max_assignments : Nat)
    (hnodup : (equipment_list.map Equipment.bfm_no).Nodup) :
    (generate_assignments repo now equipment_list week_start
        max_assignments).Pairwise
      (fun a b => ¬(a.bfm_no = b.bfm_no ∧ a.pm_type = b.pm_type)) ∧
    (∀ a ∈ generate_assignments repo now equipment_list week_start
        max_assignments,
      ∀ b ∈ generate_assignments repo now equipment_list week_start
        max_assignments,
      a.bfm_no = b.bfm_no → a.pm_type = PMType.MONTHLY →
        b.pm_type ≠ PMType.ANNUAL) := by
  have hsymm : Symmetric (fun a b : PMAssignment => a.bfm_no ≠ b.bfm_no) :=
    fun a b h he => h he.symm
  have hpw : ((equipment_list.foldl (genStep repo now week_start)
      ([], [])).2).Pairwise (fun a b => a.bfm_no ≠ b.bfm_no) :=
    genFold_pairwise repo now week_start equipment_list ([], []) hnodup
      List.Pairwise.nil (by simp)
  have hout : (generate_assignments repo now equipment_list week_start
      max_assignments).Pairwise (fun a b => a.bfm_no ≠ b.bfm_no) := by
    unfold generate_assignments
    refine List.Pairwise.sublist (List.take_sublist _ _) ?_
    exact ((List.perm_insertionSort _ _).pairwise_iff (fun h he => h he.symm)).mpr hpw
  constructor
  · exact hout.imp (fun h hb => h hb.1)
  · intro a ha b hb hab ham hbann
    rcases eq_or_ne a b with rfl | hne
    · rw [ham] at hbann
      exact PMType.noConfusion hbann
    · exact (List.Pairwise.forall hsymm hout) ha hb hne hab

def repoW5 : Repo where
  uncompleted := fun _ _ _ => []
  next_annual := fun _ => none
  completions := fun _ => []
  scheduled := fun _ _ => []

def rosterW5 : List Equipment :=
  [⟨"A1", "Lift", true, true, none, none, "Active", 1⟩,
   ⟨"A2", "Fan", false, true, none, none, "Active", 99⟩]

/-- Witness for C5 on a concrete two-item roster with distinct codes. -/
theorem generate_assignments_unique_per_type_witness :
    (generate_assignments repoW5 0 rosterW5 ⟨2025, 1, 6⟩ 10).Pairwise
      (fun a b => ¬(a.bfm_no = b.bfm_no ∧ a.pm_type = b.pm_type)) ∧
    (∀ a ∈ generate_assignments repoW5 0 rosterW5 ⟨2025, 1, 6⟩ 10,
      ∀ b ∈ generate_assignments repoW5 0 rosterW5 ⟨2025, 1, 6⟩ 10,
      a.bfm_no = b.bfm_no → a.pm_type = PMType.MONTHLY →
        b.pm_type ≠ PMType.ANNUAL) :=
  generate_assignments_unique_per_type repoW5 0 rosterW5 ⟨2025, 1, 6⟩ 10
    (by decide)
